import Mathlib

/-! Verification of the session-token codec in `src/token.rs`.

The source wraps the external `jsonwebtoken` crate: it builds a claims
envelope carrying `nbf` (not valid before) and `exp` (expires at) as whole
seconds since the Unix epoch around an arbitrary payload, signs it, and on
verification enforces both temporal bounds with the crate's default
60-second leeway.

Embedding choices:
- `Duration` mirrors Rust `std::time::Duration`: whole seconds plus a
  nanosecond remainder, with `Duration.add` carrying nanosecond overflow
  into the seconds and `Duration.as_secs` truncating.
- `Claims` mirrors the source's `Claims<T>` struct (both temporal fields
  mandatory).  `WireClaims` is the verifier-side view of a decoded
  envelope, where either temporal claim may be absent from the wire.
- The cryptographic signer/verifier is external to the repository, so it
  is modelled from the spec: a `Token` is either a well-formed signed
  envelope tagged with the key that signed it, or garbage (any malformed,
  truncated or tampered string); `jwt_decode` checks the key, the required
  claims and the temporal bounds exactly as the spec describes the
  capability, with the skew tolerance applied symmetrically and
  inclusively on both bounds.
- Keys are abstract identifiers (`Nat`); a signature verifies exactly when
  the decoding key matches the encoding key (symmetric-secret model).
-/

namespace Websessn

/-- Nanoseconds in a second, as in Rust `std::time::Duration`. -/
def NANOS_PER_SEC : Nat := 1000000000

/-- Rust `std::time::Duration`: whole seconds plus a nanosecond part.
A value produced by the Rust type always satisfies `wf` below. -/
structure Duration where
  secs : Nat
  nanos : Nat
deriving DecidableEq, Repr

/-- The representation invariant of Rust `Duration`: the nanosecond part
is a proper remainder. -/
def Duration.wf (d : Duration) : Prop := d.nanos < NANOS_PER_SEC

instance (d : Duration) : Decidable d.wf := by
  unfold Duration.wf; infer_instance

/-- Rust `Duration` addition: nanosecond overflow carries into seconds. -/
def Duration.add (a b : Duration) : Duration :=
  { secs := a.secs + b.secs + (a.nanos + b.nanos) / NANOS_PER_SEC
    nanos := (a.nanos + b.nanos) % NANOS_PER_SEC }

/-- Rust `Duration::as_secs`: the whole-second count, truncating the
nanosecond part. -/
def Duration.as_secs (d : Duration) : Nat := d.secs

/-- The zero duration. -/
def Duration.zero : Duration := { secs := 0, nanos := 0 }

/-- The source's `Claims<T>` struct: `exp`, `nbf` (seconds since the Unix
epoch) and the caller's payload, all mandatory. -/
structure Claims (T : Type) where
  exp : Nat
  nbf : Nat
  inner : T
deriving DecidableEq, Repr

/-- Modelled from the spec: the claims of a signed envelope as the
verifier sees them on the wire — either temporal claim may be absent
from an externally supplied token. -/
structure WireClaims (T : Type) where
  exp : Option Nat
  nbf : Option Nat
  inner : T
deriving DecidableEq, Repr

/-- A well-formed `Claims` value as it appears on the wire. -/
def Claims.toWire {T : Type} (c : Claims T) : WireClaims T :=
  { exp := some c.exp, nbf := some c.nbf, inner := c.inner }

/-- Modelled from the spec: an opaque token string, as classified by the
external verifier.  `signed c k` is a well-formed signed envelope whose
signature was produced with key `k`; `garbage` is any string that is not a
well-formed signed envelope (malformed, truncated, or tampered). -/
inductive Token (T : Type) where
  | signed (claims : WireClaims T) (key : Nat)
  | garbage
deriving DecidableEq, Repr

/-- Modelled from the spec: the error taxonomy of the external verifier
(`jsonwebtoken::errors::ErrorKind`). -/
inductive JwtError where
  | invalidToken
  | invalidSignature
  | missingRequiredClaim
  | expiredSignature
  | immatureSignature
deriving DecidableEq, Repr

/-- The verifier-side validation policy (`jsonwebtoken::Validation`). -/
structure Validation where
  required_spec_claims : List String
  validate_exp : Bool
  validate_nbf : Bool
  leeway : Nat
deriving DecidableEq, Repr

/-- The source's process-wide `VALIDATION` value: `Validation::default()`
(leeway 60 s) with `nbf` and `exp` marked required and both temporal
checks enabled. -/
def VALIDATION : Validation :=
  { required_spec_claims := ["nbf", "exp"]
    validate_exp := true
    validate_nbf := true
    leeway := 60 }

/-- Modelled from the spec: the external verification capability
(`jsonwebtoken::decode`).  Checks the signature against the supplied key,
rejects envelopes lacking a required claim, then enforces the temporal
bounds with the policy's leeway applied symmetrically and inclusively:
accepted only if `now <= exp + leeway` and `nbf <= now + leeway`. -/
def jwt_decode {T : Type} (token : Token T) (dk : Nat) (v : Validation)
    (now : Nat) : Except JwtError (WireClaims T) :=
  match token with
  | .garbage => .error .invalidToken
  | .signed c k =>
    if k ≠ dk then
      .error .invalidSignature
    else if (v.required_spec_claims.contains "nbf" && c.nbf.isNone)
        || (v.required_spec_claims.contains "exp" && c.exp.isNone) then
      .error .missingRequiredClaim
    else if v.validate_exp && c.exp.elim false (fun e => decide (e + v.leeway < now)) then
      .error .expiredSignature
    else if v.validate_nbf && c.nbf.elim false (fun n => decide (now + v.leeway < n)) then
      .error .immatureSignature
    else
      .ok c

/-- The source's `encode_internal`: builds the claims envelope with
`nbf = current_time.as_secs()` and `exp = (current_time + length).as_secs()`
around the unmodified payload, and signs exactly that envelope with the
encoding key.  (The modelled external `jsonwebtoken::encode` always
succeeds on a serializable payload, so the `.expect` in the source never
fires here.) -/
def encode_internal {T : Type} (inner : T) (length : Duration) (ek : Nat)
    (current_time_since_epoch : Duration) : Token T :=
  let claims : Claims T :=
    { nbf := current_time_since_epoch.as_secs
      exp := (current_time_since_epoch.add length).as_secs
      inner := inner }
  Token.signed claims.toWire ek

/-- The source's public `encode`: samples the clock and delegates to
`encode_internal`.  The sampled wall-clock time (the duration since the
Unix epoch, whose successful read the source `.expect`s) is the explicit
`now` argument here. -/
def encode {T : Type} (inner : T) (length : Duration) (ek : Nat)
    (now : Duration) : Token T :=
  encode_internal inner length ek now

/-- The source's public `decode`: verifies with the fixed process-wide
`VALIDATION` policy and projects out the payload.  `now` is the
verifier's current wall-clock time in whole seconds. -/
def decode {T : Type} (token : Token T) (dk : Nat) (now : Nat) :
    Except JwtError T :=
  (jwt_decode token dk VALIDATION now).map (fun x => x.inner)

example : decode (encode (42 : Nat) ⟨300, 0⟩ 7 ⟨1000, 5⟩) 7 1000 = .ok 42 := by rfl
example : decode (encode (42 : Nat) ⟨300, 0⟩ 7 ⟨1000, 5⟩) 8 1000 = .error .invalidSignature := by rfl
example : decode (encode (42 : Nat) ⟨300, 0⟩ 7 ⟨1000, 5⟩) 7 1360 = .ok 42 := by rfl
example : decode (encode (42 : Nat) ⟨300, 0⟩ 7 ⟨1000, 5⟩) 7 1361 = .error .expiredSignature := by rfl
example : decode (Token.garbage : Token Nat) 7 1000 = .error .invalidToken := by rfl

/-- Helper: what `decode` computes on a well-formed signed envelope
verified with the matching key — only the two temporal checks remain,
with the fixed 60-second leeway. -/
theorem decode_signed_eq {T : Type} (p : T) (a b k now : Nat) :
    decode (Token.signed { exp := some b, nbf := some a, inner := p } k) k now =
      if b + 60 < now then Except.error JwtError.expiredSignature
      else if now + 60 < a then Except.error JwtError.immatureSignature
      else Except.ok p := by
  simp only [decode, jwt_decode, VALIDATION, Option.elim, Option.isNone,
    List.contains, ne_eq, not_true_eq_false, if_false, Bool.and_false,
    Bool.false_or, Bool.or_self, Bool.true_and, decide_eq_true_eq]
  split_ifs <;> simp_all [Except.map]

/-- Helper: the envelope inside `encode_internal p d ek t`, explicitly. -/
theorem encode_internal_eq {T : Type} (p : T) (d : Duration) (ek : Nat)
    (t : Duration) :
    encode_internal p d ek t =
      Token.signed
        { exp := some ((t.add d).as_secs), nbf := some t.as_secs, inner := p }
        ek := rfl

/-- C1: for every payload `p`, validity duration `d` and key `k`, decoding
the token produced by `encode p d k` (issued at wall-clock time `t`) with
the matching key, at the same current time as issuance, succeeds and
returns the original payload `p` unchanged. -/
theorem decode_encode_roundtrip {T : Type} (p : T) (d : Duration) (k : Nat)
    (t : Duration) :
    decode (encode p d k t) k t.as_secs = .ok p := by
  rw [encode, encode_internal_eq, decode_signed_eq]
  have h1 : ¬ (t.add d).as_secs + 60 < t.as_secs := by
    simp only [Duration.add, Duration.as_secs]
    generalize (t.nanos + d.nanos) / NANOS_PER_SEC = q
    omega
  have h2 : ¬ t.as_secs + 60 < t.as_secs := by omega
  rw [if_neg h1, if_neg h2]

/-- C2: for every payload, validity duration and issuance time, the
envelope signed by `encode_internal` carries `nbf` equal to the sampled
current time, `exp` equal to the current time plus the requested validity
(both as whole seconds since the epoch), and the payload unmodified; the
token is exactly that envelope signed with the encoding key. -/
theorem encode_internal_envelope {T : Type} (p : T) (d : Duration) (ek : Nat)
    (t : Duration) :
    ∃ c : WireClaims T, encode_internal p d ek t = Token.signed c ek ∧
      c.nbf = some t.as_secs ∧ c.exp = some ((t.add d).as_secs) ∧
      c.inner = p :=
  ⟨_, rfl, rfl, rfl, rfl⟩

/-- C3 (counterexample): an envelope built with the strictly positive
validity duration of one nanosecond still has `exp = nbf`, so equality of
the two bounds is not restricted to a zero validity duration. -/
theorem exp_eq_nbf_positive_validity :
    ∃ c : WireClaims Nat,
      encode_internal (0 : Nat) { secs := 0, nanos := 1 } 0
          { secs := 0, nanos := 0 } = Token.signed c 0 ∧
      c.exp = c.nbf ∧
      ({ secs := 0, nanos := 1 } : Duration) ≠ Duration.zero := by
  refine ⟨_, rfl, by decide, by decide⟩

/-- C3 (amended): every envelope produced by `encode_internal` satisfies
`exp >= nbf`; equality holds exactly when the validity duration's
whole-second count is zero and the subsecond parts of the issuance time
and of the validity duration sum to less than one second — in particular
whenever the validity duration is zero, but also for some positive
sub-second durations. -/
theorem envelope_exp_ge_nbf {T : Type} (p : T) (d : Duration) (ek : Nat)
    (t : Duration) :
    ∃ c : WireClaims T, encode_internal p d ek t = Token.signed c ek ∧
      c.nbf = some t.as_secs ∧ c.exp = some ((t.add d).as_secs) ∧
      t.as_secs ≤ (t.add d).as_secs ∧
      ((t.add d).as_secs = t.as_secs ↔
        d.secs = 0 ∧ t.nanos + d.nanos < NANOS_PER_SEC) := by
  refine ⟨_, rfl, rfl, rfl, ?_, ?_⟩ <;>
    simp only [Duration.add, Duration.as_secs, NANOS_PER_SEC] <;> omega

/-- C4: on a validly-signed token carrying both `nbf = a` and `exp = b`,
`decode` accepts at time `now` iff `a <= now + 60` and `now - 60 <= b`
(the fixed 60-second skew applied symmetrically, both bounds inclusive);
in particular verification at exactly `b + 60` succeeds and at
`b + 60 + 1` fails. -/
theorem decode_skew_window {T : Type} (p : T) (a b k now : Nat)
    (hab : a ≤ b) :
    (decode (Token.signed { exp := some b, nbf := some a, inner := p } k)
        k now = .ok p ↔ a ≤ now + 60 ∧ now - 60 ≤ b) ∧
    decode (Token.signed { exp := some b, nbf := some a, inner := p } k)
        k (b + 60) = .ok p ∧
    decode (Token.signed { exp := some b, nbf := some a, inner := p } k)
        k (b + 60 + 1) = .error .expiredSignature := by
  refine ⟨?_, ?_, ?_⟩ <;> rw [decode_signed_eq] <;> split_ifs <;>
    first
    | (simp_all; omega)
    | simp_all

/-- C4 witness: the skew window at concrete values. -/
theorem decode_skew_window_witness :
    (decode
        (Token.signed { exp := some 20, nbf := some 10, inner := (1 : Nat) } 3)
        3 25 = .ok 1 ↔ 10 ≤ 25 + 60 ∧ 25 - 60 ≤ 20) ∧
    decode
        (Token.signed { exp := some 20, nbf := some 10, inner := (1 : Nat) } 3)
        3 (20 + 60) = .ok 1 ∧
    decode
        (Token.signed { exp := some 20, nbf := some 10, inner := (1 : Nat) } 3)
        3 (20 + 60 + 1) = .error .expiredSignature :=
  decode_skew_window 1 10 20 3 25 (by decide)

/-- C5: a token whose envelope lacks the `nbf` claim or the `exp` claim is
rejected by `decode` with the missing-required-claim (malformed) error,
even when its signature verifies; `decode` takes no per-call policy, so
the enforcement is unconditional. -/
theorem decode_missing_claims {T : Type} (c : WireClaims T) (k now : Nat)
    (h : c.nbf = none ∨ c.exp = none) :
    decode (Token.signed c k) k now = .error .missingRequiredClaim := by
  obtain ⟨e, n, i⟩ := c
  rcases e with _ | e <;> rcases n with _ | n <;>
    simp_all [decode, jwt_decode, VALIDATION, Except.map]

/-- C5 witness: a signed token lacking `exp` is rejected as malformed. -/
theorem decode_missing_claims_witness :
    decode (Token.signed { exp := none, nbf := some 5, inner := (0 : Nat) } 3)
        3 100 = .error .missingRequiredClaim :=
  decode_missing_claims _ 3 100 (Or.inr rfl)

/-- C6: a token issued through the time-injected `encode_internal` with an
issuance time strictly beyond the 60-second skew in the future, decoded at
the present time with the matching key, fails with the not-yet-valid
(immature-signature) error even though its signature is valid. -/
theorem decode_future_token {T : Type} (p : T) (d : Duration) (k : Nat)
    (t : Duration) (now : Nat) (h : now + 60 < t.as_secs) :
    decode (encode_internal p d k t) k now = .error .immatureSignature := by
  rw [encode_internal_eq, decode_signed_eq]
  have h1 : ¬ (t.add d).as_secs + 60 < now := by
    simp only [Duration.add, Duration.as_secs] at *
    generalize (t.nanos + d.nanos) / NANOS_PER_SEC = q
    omega
  rw [if_neg h1, if_pos h]

/-- C6 witness: a token issued five minutes in the future is rejected as
not yet valid when decoded now. -/
theorem decode_future_token_witness :
    decode
        (encode_internal (9 : Nat) { secs := 300, nanos := 0 } 4
          { secs := 1300, nanos := 0 })
        4 1000 = .error .immatureSignature :=
  decode_future_token 9 { secs := 300, nanos := 0 } 4
    { secs := 1300, nanos := 0 } 1000 (by decide)

/-- C7: `decode` is total on every token (including garbage — any
malformed, truncated or tampered string), every key and every time: it
always returns either a payload or a typed error, never crashes. -/
theorem decode_total {T : Type} (tok : Token T) (dk now : Nat) :
    (∃ p, decode tok dk now = .ok p) ∨ (∃ e, decode tok dk now = .error e) := by
  cases h : decode tok dk now with
  | ok p => exact Or.inl ⟨p, rfl⟩
  | error e => exact Or.inr ⟨e, rfl⟩

/-- C8: `encode` has no failure path: for every payload, validity duration,
key and successfully sampled clock reading it returns a signed token. -/
theorem encode_total {T : Type} (p : T) (d : Duration) (ek : Nat)
    (now : Duration) :
    ∃ c : WireClaims T, encode p d ek now = Token.signed c ek :=
  ⟨_, rfl⟩

/-- C9: `decode` is deterministic and stateless: two calls with the same
token, the same key and the same current time return identical results
(there is no other state `decode` could read or write). -/
theorem decode_deterministic {T : Type} (tok1 tok2 : Token T)
    (k1 k2 n1 n2 : Nat) (ht : tok1 = tok2) (hk : k1 = k2) (hn : n1 = n2) :
    decode tok1 k1 n1 = decode tok2 k2 n2 := by
  subst ht; subst hk; subst hn; rfl

/-- C9 witness: two identical calls at concrete inputs agree. -/
theorem decode_deterministic_witness :
    decode (Token.garbage : Token Nat) 2 9 = decode Token.garbage 2 9 :=
  decode_deterministic Token.garbage Token.garbage 2 2 9 9 rfl rfl rfl

/-- C10: with well-formed `Duration` inputs, the envelope's validity
window is `exp - nbf = d.as_secs` or `d.as_secs + 1`, the extra second
appearing exactly when the subsecond parts of the issuance time and of the
requested validity sum to at least one second; subsecond precision of the
validity is otherwise discarded. -/
theorem envelope_window_truncation {T : Type} (p : T) (d : Duration)
    (ek : Nat) (t : Duration) (ht : t.wf) (hd : d.wf) :
    ∃ c : WireClaims T, encode_internal p d ek t = Token.signed c ek ∧
      c.nbf = some t.as_secs ∧ c.exp = some ((t.add d).as_secs) ∧
      ((t.add d).as_secs - t.as_secs = d.as_secs ∨
        (t.add d).as_secs - t.as_secs = d.as_secs + 1) ∧
      ((t.add d).as_secs - t.as_secs = d.as_secs + 1 ↔
        NANOS_PER_SEC ≤ t.nanos + d.nanos) := by
  refine ⟨_, rfl, rfl, rfl, ?_, ?_⟩ <;>
    simp only [Duration.wf, Duration.add, Duration.as_secs,
      NANOS_PER_SEC] at * <;> omega

/-- C10 witness: a 90.6-second validity requested at a time with 0.5 s of
subsecond drift yields a 91-second window. -/
theorem envelope_window_truncation_witness :
    ∃ c : WireClaims Nat,
      encode_internal (7 : Nat) { secs := 90, nanos := 600000000 } 1
          { secs := 1000, nanos := 500000000 } = Token.signed c 1 ∧
      c.nbf = some (Duration.as_secs { secs := 1000, nanos := 500000000 }) ∧
      c.exp = some
        (Duration.as_secs
          (Duration.add { secs := 1000, nanos := 500000000 }
            { secs := 90, nanos := 600000000 })) ∧
      ((Duration.as_secs
            (Duration.add { secs := 1000, nanos := 500000000 }
              { secs := 90, nanos := 600000000 }) -
          Duration.as_secs { secs := 1000, nanos := 500000000 } =
          Duration.as_secs { secs := 90, nanos := 600000000 } ∨
        Duration.as_secs
            (Duration.add { secs := 1000, nanos := 500000000 }
              { secs := 90, nanos := 600000000 }) -
          Duration.as_secs { secs := 1000, nanos := 500000000 } =
          Duration.as_secs { secs := 90, nanos := 600000000 } + 1)) ∧
      (Duration.as_secs
            (Duration.add { secs := 1000, nanos := 500000000 }
              { secs := 90, nanos := 600000000 }) -
          Duration.as_secs { secs := 1000, nanos := 500000000 } =
          Duration.as_secs { secs := 90, nanos := 600000000 } + 1 ↔
        NANOS_PER_SEC ≤ 500000000 + 600000000) :=
  envelope_window_truncation 7 { secs := 90, nanos := 600000000 } 1
    { secs := 1000, nanos := 500000000 } (by decide) (by decide)

end Websessn
